import Mathlib

/-!
Shallow embedding of the libaio-futures library (src/src/lib.rs).

Conventions of the embedding:
- Machine integers are modelled as Nat/Int with explicit two's-complement
  truncation where a Rust cast occurs (toI32, toI64, castUsize below).
- A Rust function that can abort (assert, unreachable, arithmetic overflow
  in checked builds, out-of-range slice index, Option::unwrap) is modelled
  as returning Option, with none for the abort.
- Heap pointers to control blocks are identified with the pointed-to
  control-block value (the code never compares or offsets these pointers;
  it only passes them from the submitter queue to io_submit).
- Wakers are opaque tokens, modelled as Nat.
- The mutex-protected HashMap of AIONotifier is modelled as a function map
  Nat to Option AIOState; each notifier method is a pure function from the
  map (plus arguments) to the updated map and its observable effects.
-/

/-- Wakers are opaque values that the registry stores and hands back; the
code only clones, stores and wakes them, so a token suffices. -/
abbrev Waker := Nat

/-- Byte buffers (Box of u8 slice in the source) as lists of bytes. -/
abbrev Buffer := List Nat

/-- Modelled from the spec: the opcode field of the kernel control block;
the numeric encoding lives in the missing abi module, the spec (section 3)
gives the two opcodes pread and pwrite. -/
inductive IOCmd where
  | PRead : IOCmd
  | PWrite : IOCmd
deriving DecidableEq

/-- Modelled from the spec: the kernel control block abi::IOCb (the abi
module is not among the sources; section 3 of the spec lists the embedded
fields). The buffer-pointer field aio_buf is modelled as the pointed-to
buffer contents, since memory addresses are outside the embedding. -/
structure IOCb where
  aio_fildes : Nat
  aio_lio_opcode : IOCmd
  aio_reqprio : Nat
  aio_buf : Buffer
  aio_nbytes : Nat
  aio_offset : Nat
  aio_flags : Nat
  aio_data : Nat
deriving DecidableEq

/-- Modelled from the spec: abi::IOCb::default() is a zeroed control block
(the opcode default is irrelevant: AIO::new overwrites every field used). -/
def IOCb.default : IOCb :=
  { aio_fildes := 0, aio_lio_opcode := IOCmd.PRead, aio_reqprio := 0,
    aio_buf := [], aio_nbytes := 0, aio_offset := 0, aio_flags := 0,
    aio_data := 0 }

/-- The operation record (struct AIO in the source, renamed to fit the
identifier rules of this development): the owned data buffer (an Option
because finish takes it out), the control block, and the identifier. -/
structure Aio where
  data : Option Buffer
  iocb : IOCb
  id : Nat
deriving DecidableEq

/-- Two's-complement truncation of an unbounded integer to i32. -/
def toI32 (x : Int) : Int := (x + 2 ^ 31) % 2 ^ 32 - 2 ^ 31

/-- Two's-complement truncation of an unbounded integer to i64. -/
def toI64 (x : Int) : Int := (x + 2 ^ 63) % 2 ^ 64 - 2 ^ 63

/-- The Rust cast of a (possibly negative) machine integer to usize. -/
def castUsize (x : Int) : Nat := (x % 2 ^ 64).toNat

/-- AIO::new from the source: populates every control-block field from the
arguments; fd as u32 is the 32-bit truncation of the raw fd. -/
def Aio.new (id : Nat) (fd : Int) (off : Nat) (data : Buffer)
    (priority : Nat) (flags : Nat) (opcode : IOCmd) : Aio :=
  let iocb : IOCb :=
    { aio_fildes := (fd % 2 ^ 32).toNat
      aio_lio_opcode := opcode
      aio_reqprio := priority
      aio_buf := data
      aio_nbytes := data.length
      aio_offset := off
      aio_flags := flags
      aio_data := id }
  { data := some data, iocb := iocb, id := id }

/-- The result of an AIO operation (type AIOResult in the source):
Ok(bytes transferred, buffer) or Err(errno). -/
inductive AIOResult where
  | ok : Nat → Buffer → AIOResult
  | err : Int → AIOResult
deriving DecidableEq

/-- The registry entry state machine (enum AIOState in the source). -/
inductive AIOState where
  | FutureInit : Aio → Bool → AIOState
  | FuturePending : Aio → Waker → Bool → AIOState
  | FutureDone : AIOResult → AIOState
deriving DecidableEq

/-- The notifier's waiting map (HashMap of u64 to AIOState under a mutex). -/
abbrev Registry := Nat → Option AIOState

def Registry.empty : Registry := fun _ => none

def Registry.lookup (m : Registry) (id : Nat) : Option AIOState := m id

def Registry.insert (m : Registry) (id : Nat) (v : AIOState) : Registry :=
  fun j => if j = id then some v else m j

def Registry.erase (m : Registry) (id : Nat) : Registry :=
  fun j => if j = id then none else m j

/-- AIONotifier::register_notify: inserts the entry and asserts that no
entry was present; an occupied key makes the assertion fail (none). -/
def AIONotifier.register_notify (m : Registry) (id : Nat) (st : AIOState) :
    Option Registry :=
  match Registry.lookup m id with
  | none => some (Registry.insert m id st)
  | some _ => none

/-- AIONotifier::dropped: mark Init and Pending entries dropped in place,
remove Done entries, ignore absent identifiers. -/
def AIONotifier.dropped (m : Registry) (id : Nat) : Registry :=
  match Registry.lookup m id with
  | some (.FutureInit aio _) => Registry.insert m id (.FutureInit aio true)
  | some (.FuturePending aio w _) =>
      Registry.insert m id (.FuturePending aio w true)
  | some (.FutureDone _) => Registry.erase m id
  | none => m

/-- AIONotifier::poll: the entry is removed, inspected and re-inserted.
In the FuturePending arm the source's pattern binding of the stored waker
shadows the poll argument, so the previously stored waker (not the newly
supplied one) is re-inserted; the embedding reproduces that by not using
the argument in that arm. An absent identifier hits unreachable (none).
The returned pair is the updated map and the Option result of the poll. -/
def AIONotifier.poll (m : Registry) (id : Nat) (waker : Waker) :
    Option (Registry × Option AIOResult) :=
  match Registry.lookup m id with
  | some v =>
    let m1 := Registry.erase m id
    match v with
    | .FutureInit aio _ =>
        some (Registry.insert m1 id (.FuturePending aio waker false), none)
    | .FuturePending aio w d =>
        some (Registry.insert m1 id (.FuturePending aio w d), none)
    | .FutureDone res => some (m1, some res)
  | none => none

/-- AIONotifier::finish: the entry is removed and, unless the operation
was dropped, replaced by FutureDone computed from the signed result; a
Pending entry's waker is woken (returned as the second component) after
the Done state is stored. The error value is the i64 negation of res
truncated to i32, exactly as the source's minus-res-as-i32 computes; the
success branch unwraps the record's buffer (absent buffer aborts). An
absent identifier hits unreachable (none). -/
def AIONotifier.finish (m : Registry) (id : Nat) (res : Int) :
    Option (Registry × Option Waker) :=
  match Registry.lookup m id with
  | some st =>
    let m1 := Registry.erase m id
    match st with
    | .FutureInit aio dropped =>
      if dropped then some (m1, none)
      else if 0 ≤ res then
        match aio.data with
        | some buf =>
            some (Registry.insert m1 id (.FutureDone (.ok res.toNat buf)), none)
        | none => none
      else
        some (Registry.insert m1 id
          (.FutureDone (.err (toI32 (toI64 (-res))))), none)
    | .FuturePending aio w dropped =>
      if dropped then some (m1, none)
      else if 0 ≤ res then
        match aio.data with
        | some buf =>
            some (Registry.insert m1 id (.FutureDone (.ok res.toNat buf)), some w)
        | none => none
      else
        some (Registry.insert m1 id
          (.FutureDone (.err (toI32 (toI64 (-res))))), some w)
    | .FutureDone ret =>
        some (Registry.insert m1 id (.FutureDone ret), none)
  | none => none

/-- Observation of a finish outcome: the entry left at the identifier and
the waker woken by the call, or none when the call aborted. -/
def fObs (r : Option (Registry × Option Waker)) (id : Nat) :
    Option (Option AIOState × Option Waker) :=
  r.map fun p => (Registry.lookup p.1 id, p.2)

/-- The FutureDone payload that finish builds from a signed result and the
record's buffer. -/
def doneRes (res : Int) (buf : Buffer) : AIOResult :=
  if 0 ≤ res then .ok res.toNat buf else .err (toI32 (toI64 (-res)))

/-- AIOBatchSchedulerIn::next_id: return the stored counter and advance it
by a wrapping 64-bit increment; the pair is (returned id, new counter). -/
def AIOBatchSchedulerIn.next_id (last_id : Nat) : Nat × Nat :=
  (last_id, (last_id + 1) % 2 ^ 64)

/-- The counter value with which new_batch_scheduler seeds the scheduler. -/
def newBatchSchedulerLastId : Nat := 0

/-- The submitter-side state: the notifier's waiting map, the submission
channel content (pointers modelled as control-block values, FIFO), and the
scheduler's identifier counter. -/
structure SchedState where
  waiting : Registry
  queue : List IOCb
  last_id : Nat

/-- AIOBatchSchedulerIn::schedule: build the future for the record's id,
register the FutureInit entry (an occupied key aborts), then send the
control-block pointer on the submission channel; returns the updated state
and the future's identifier. -/
def AIOBatchSchedulerIn.schedule (st : SchedState) (aio : Aio) :
    Option (SchedState × Nat) :=
  match AIONotifier.register_notify st.waiting aio.id (.FutureInit aio false) with
  | none => none
  | some w1 =>
      some ({ st with waiting := w1, queue := st.queue ++ [aio.iocb] }, aio.id)

/-- AIOManager::read: default the priority to 0, allocate a zeroed buffer
of the requested length, allocate the next identifier, build the record
with opcode PRead and flags 0, and schedule it. -/
def AIOManager.read (st : SchedState) (fd : Int) (offset : Nat) (length : Nat)
    (priority : Option Nat) : Option (SchedState × Nat) :=
  let p := priority.getD 0
  let data : Buffer := List.replicate length 0
  let id := (AIOBatchSchedulerIn.next_id st.last_id).1
  let st1 := { st with last_id := (AIOBatchSchedulerIn.next_id st.last_id).2 }
  AIOBatchSchedulerIn.schedule st1 (Aio.new id fd offset data p 0 IOCmd.PRead)

/-- AIOManager::write: default the priority to 0, take the caller's buffer,
allocate the next identifier, build the record with opcode PWrite and
flags 0, and schedule it. -/
def AIOManager.write (st : SchedState) (fd : Int) (offset : Nat) (data : Buffer)
    (priority : Option Nat) : Option (SchedState × Nat) :=
  let p := priority.getD 0
  let id := (AIOBatchSchedulerIn.next_id st.last_id).1
  let st1 := { st with last_id := (AIOBatchSchedulerIn.next_id st.last_id).2 }
  AIOBatchSchedulerIn.schedule st1 (Aio.new id fd offset data p 0 IOCmd.PWrite)

/-- The drain loop inside AIOBatchSchedulerOut::submit: while the channel
yields an item, push it onto the batch, decrement the quota and stop when
the quota reaches zero. The source enters this loop only with a positive
quota (the guard pending.len() smaller than quota holds), so the Nat
subtraction never truncates on a reachable call. -/
def drainLoop : List IOCb → List IOCb → Nat → List IOCb × List IOCb
  | pending, [], _ => (pending, [])
  | pending, x :: xs, quota =>
    let pending1 := pending ++ [x]
    let quota1 := quota - 1
    if quota1 = 0 then (pending1, xs) else drainLoop pending1 xs quota1

/-- The batch-building phase of AIOBatchSchedulerOut::submit: start from
the leftover pointers and, when they leave room inside max_nbatched, drain
as many channel items as fit; the pair is (batch, remaining channel). -/
def buildBatch (maxN : Nat) (leftover queue : List IOCb) :
    List IOCb × List IOCb :=
  if leftover.length < maxN then
    drainLoop leftover queue (maxN - leftover.length)
  else (leftover, queue)

/-- AIOBatchSchedulerOut::submit, with the io_submit return value supplied
as an oracle (ioSubmitRet, an i64). An empty batch returns 0 accepted and
leaves the leftover untouched. Otherwise a return equal to minus EAGAIN
(minus 11) is rewritten to 0; the return is then cast to usize (wrapping
for other negative values), and the batch suffix past the accepted count
becomes the new leftover — an accepted count beyond the batch length is
the source's out-of-range slice, an abort (none). The result triple is
(accepted count, new leftover, remaining channel). -/
def AIOBatchSchedulerOut.submit (maxN : Nat) (leftover queue : List IOCb)
    (ioSubmitRet : Int) : Option (Nat × List IOCb × List IOCb) :=
  let built := buildBatch maxN leftover queue
  let pending := built.1
  let queue1 := built.2
  if pending.length = 0 then some (0, leftover, queue1)
  else
    let ret := if ioSubmitRet < 0 ∧ ioSubmitRet = -11 then 0 else ioSubmitRet
    let nacc := castUsize ret
    if nacc ≤ pending.length then some (nacc, List.drop nacc pending, queue1)
    else none

/-- The worker-thread state at the top of its loop: the configured batch
cap, the count of submitted-but-not-reaped operations, the leftover batch
suffix, the submission channel content, whether a shutdown signal is
pending on the exit channel, whether the loop has exited, and the shared
registry. -/
structure WorkerState where
  maxNbatched : Nat
  ongoing : Nat
  leftover : List IOCb
  queue : List IOCb
  exitRequested : Bool
  exited : Bool
  waiting : Registry

/-- The nondeterministic choices one worker iteration consumes: which
ready select branch fires when both are ready, the io_submit return for
each inner submit call, and the io_getevents outcome (none for a negative
return, some of the reaped events otherwise, each event being its
user_data identifier and signed result). -/
structure WOracle where
  selPickExit : Bool
  submitRets : List Int
  getevents : Option (List (Nat × Int))

/-- One pass of the worker's inner submit loop body: call submit and add
the accepted count to ongoing. -/
def submitOnce (s : WorkerState) (ret : Int) : Option (Nat × WorkerState) :=
  match AIOBatchSchedulerOut.submit s.maxNbatched s.leftover s.queue ret with
  | none => none
  | some (nacc, l2, q2) =>
      some (nacc, { s with ongoing := s.ongoing + nacc, leftover := l2, queue := q2 })

/-- The worker's inner submit loop: repeat submitOnce until a call accepts
nothing; the oracle list supplies one io_submit return per call and an
exhausted oracle leaves the iteration unspecified (none). -/
def submitLoop : WorkerState → List Int → Option WorkerState
  | _, [] => none
  | s, ret :: rest =>
    match submitOnce s ret with
    | none => none
    | some (nacc, s1) => if nacc = 0 then some s1 else submitLoop s1 rest

/-- Dispatch of the reaped events to AIONotifier::finish, in order; a
finish abort aborts the iteration. -/
def dispatchEvents : Registry → List (Nat × Int) → Option Registry
  | m, [] => some m
  | m, (id, res) :: rest =>
    match AIONotifier.finish m id res with
    | none => none
    | some (m1, _) => dispatchEvents m1 rest

/-- The submit and reap phases of one worker iteration: run the submit
loop; when nothing is ongoing skip the reap; otherwise a none getevents
outcome is the unhandled negative return (the source's positivity
assertion fails), an empty event list is a timeout, and a nonempty list
decrements ongoing by the event count (more events than ongoing would
underflow the usize subtraction, an abort) and dispatches each event. -/
def workerBody (s : WorkerState) (o : WOracle) : Option WorkerState :=
  match submitLoop s o.submitRets with
  | none => none
  | some s1 =>
    if s1.ongoing = 0 then some s1
    else
      match o.getevents with
      | none => none
      | some [] => some s1
      | some evs =>
        if evs.length ≤ s1.ongoing then
          match dispatchEvents s1.waiting evs with
          | none => none
          | some m2 =>
              some { s1 with ongoing := s1.ongoing - evs.length, waiting := m2 }
        else none

/-- One iteration of the worker's main loop. At the quiesce point (nothing
ongoing and no leftovers) the worker selects over the exit channel and the
submission channel: the exit branch can fire whenever a shutdown signal is
pending — always when the channel is empty, and by scheduler choice when
both are ready — and exits the loop; otherwise a ready channel falls
through to the body, and an idle worker with no pending signal blocks
(none: no completed iteration). -/
def workerIter (s : WorkerState) (o : WOracle) : Option WorkerState :=
  if s.exited then none
  else if s.ongoing = 0 ∧ s.leftover = [] then
    if s.exitRequested ∧ (s.queue = [] ∨ o.selPickExit = true) then
      some { s with exited := true, exitRequested := false }
    else if s.queue ≠ [] then workerBody s o
    else none
  else workerBody s o

@[simp]
theorem Registry.lookup_insert_self (m : Registry) (id : Nat) (v : AIOState) :
    Registry.lookup (Registry.insert m id v) id = some v := by
  simp [Registry.lookup, Registry.insert]

theorem Registry.lookup_insert_ne (m : Registry) (id j : Nat) (v : AIOState)
    (h : j ≠ id) : Registry.lookup (Registry.insert m id v) j = Registry.lookup m j := by
  simp [Registry.lookup, Registry.insert, h]

@[simp]
theorem Registry.lookup_erase_self (m : Registry) (id : Nat) :
    Registry.lookup (Registry.erase m id) id = none := by
  simp [Registry.lookup, Registry.erase]

theorem Registry.lookup_erase_ne (m : Registry) (id j : Nat)
    (h : j ≠ id) : Registry.lookup (Registry.erase m id) j = Registry.lookup m j := by
  simp [Registry.lookup, Registry.erase, h]

/-- A concrete operation record for the poll counterexample. -/
def aioPendEx : Aio := Aio.new 0 3 0 [7] 0 0 IOCmd.PWrite

/-- A registry holding identifier 0 in the Pending state with stored waker
0 and dropped flag false. -/
def mPendEx : Registry :=
  Registry.insert Registry.empty 0 (.FuturePending aioPendEx 0 false)

/-- Claim C1 (code divergence): polling identifier 0, whose entry is
Pending with stored waker 0, with the new waker 1 re-inserts the OLD waker
0 unchanged (the source's pattern binding shadows the poll argument) while
returning not-ready; the claim says the newly supplied waker 1 replaces
the stored one. The second conjunct records that the retained entry indeed
differs from the entry the claim requires. -/
theorem poll_pending_retains_old_waker :
    (AIONotifier.poll mPendEx 0 1).map (fun p => (Registry.lookup p.1 0, p.2)) =
      some (some (.FuturePending aioPendEx 0 false), none) ∧
    AIOState.FuturePending aioPendEx 0 false ≠
      AIOState.FuturePending aioPendEx 1 false := by
  exact ⟨rfl, by decide⟩

/-- Claim C4 (amended): finish on an entry already in the Done state is a
silent no-op — the Done entry is re-inserted unchanged, no waker is woken
and no assertion fires; only finish on an absent identifier aborts. -/
theorem finish_done_noop (m : Registry) (id : Nat) (res : Int) (ret : AIOResult) :
    (Registry.lookup m id = some (.FutureDone ret) →
       fObs (AIONotifier.finish m id res) id =
         some (some (.FutureDone ret), none)) ∧
    (Registry.lookup m id = none → AIONotifier.finish m id res = none) := by
  constructor
  · intro h
    simp [AIONotifier.finish, h, fObs]
  · intro h
    simp [AIONotifier.finish, h]

/-- A registry holding identifier 0 already in the Done state. -/
def mDoneEx : Registry :=
  Registry.insert Registry.empty 0 (.FutureDone (.ok 5 [1]))

/-- Claim C4 (counterexample): calling finish on identifier 0, whose entry
is already Done, completes without aborting and leaves the entry in place,
contradicting the claim that it asserts the way double-registration does. -/
theorem finish_done_does_not_abort :
    fObs (AIONotifier.finish mDoneEx 0 7) 0 =
      some (some (.FutureDone (.ok 5 [1])), none) ∧
    (AIONotifier.finish mDoneEx 0 7).isSome = true := by
  exact ⟨rfl, rfl⟩

/-- Claim C4 (witness): the amended no-op behaviour evaluated on a
concrete Done registry. -/
theorem finish_done_noop_witness :
    fObs (AIONotifier.finish (Registry.insert Registry.empty 3 (.FutureDone (.err 2))) 3 9) 3 =
      some (some (.FutureDone (.err 2)), none) :=
  (finish_done_noop (Registry.insert Registry.empty 3 (.FutureDone (.err 2))) 3 9 (.err 2)).1
    (by rfl)

/-- Claim C5 (amended): for finish(id, res) on a non-dropped Init or
Pending entry whose record holds buffer buf, the entry becomes Done with
Ok(res as usize, buf) when res is nonnegative and Err of the 32-bit
truncation of minus res when res is negative (equal to minus res whenever
that fits in i32, which covers every kernel errno); a Pending entry's
stored waker is woken by the same call that stores Done; a dropped entry
is removed and no waker is woken. -/
theorem finish_result_spec (m : Registry) (id : Nat) (res : Int)
    (aio : Aio) (w : Waker) (buf : Buffer) (hbuf : aio.data = some buf) :
    (Registry.lookup m id = some (.FutureInit aio false) →
       fObs (AIONotifier.finish m id res) id =
         some (some (.FutureDone (doneRes res buf)), none)) ∧
    (Registry.lookup m id = some (.FuturePending aio w false) →
       fObs (AIONotifier.finish m id res) id =
         some (some (.FutureDone (doneRes res buf)), some w)) ∧
    (Registry.lookup m id = some (.FutureInit aio true) →
       fObs (AIONotifier.finish m id res) id = some (none, none)) ∧
    (Registry.lookup m id = some (.FuturePending aio w true) →
       fObs (AIONotifier.finish m id res) id = some (none, none)) := by
  refine ⟨fun h => ?_, fun h => ?_, fun h => ?_, fun h => ?_⟩ <;>
    by_cases hr : 0 ≤ res <;>
      simp [AIONotifier.finish, h, fObs, doneRes, hbuf, hr]

/-- A registry holding identifier 0 in a fresh Init state whose record's
buffer is the single byte 7. -/
def mInitEx : Registry :=
  Registry.insert Registry.empty 0 (.FutureInit (Aio.new 0 3 0 [7] 0 0 IOCmd.PWrite) false)

/-- Claim C5 (counterexample): finishing the Init entry of identifier 0
with the signed result minus 4294967307 (minus (2 to the 32 plus 11), a
value a 64-bit completion result can carry) stores Err 11 — the negated
result truncated to i32 — whereas the claim requires Err 4294967307. -/
theorem finish_error_value_truncated :
    fObs (AIONotifier.finish mInitEx 0 (-4294967307)) 0 =
      some (some (.FutureDone (.err 11)), none) ∧
    (11 : Int) ≠ 4294967307 := by
  exact ⟨by decide, by decide⟩

/-- Claim C5 (witness): the amended result computation evaluated on
concrete Init and Pending registries, one success and one failure. -/
theorem finish_result_spec_witness :
    fObs (AIONotifier.finish mInitEx 0 1) 0 =
      some (some (.FutureDone (doneRes 1 [7])), none) ∧
    fObs (AIONotifier.finish
        (Registry.insert Registry.empty 0
          (.FuturePending (Aio.new 0 3 0 [7] 0 0 IOCmd.PWrite) 4 false)) 0 (-11)) 0 =
      some (some (.FutureDone (doneRes (-11) [7])), some 4) := by
  exact ⟨(finish_result_spec mInitEx 0 1 (Aio.new 0 3 0 [7] 0 0 IOCmd.PWrite) 0 [7] rfl).1 rfl,
    (finish_result_spec
        (Registry.insert Registry.empty 0
          (.FuturePending (Aio.new 0 3 0 [7] 0 0 IOCmd.PWrite) 4 false)) 0 (-11)
        (Aio.new 0 3 0 [7] 0 0 IOCmd.PWrite) 4 [7] rfl).2.1 rfl⟩

/-- Claim C6: dropped(id) marks an Init or Pending entry dropped while the
entry (with its record, and for Pending its stored waker) stays in the
registry and every other identifier is untouched; a Done entry is removed;
an absent identifier is a no-op. -/
theorem dropped_spec (m : Registry) (id : Nat) (aio : Aio) (w : Waker)
    (d : Bool) (ret : AIOResult) :
    (Registry.lookup m id = some (.FutureInit aio d) →
       Registry.lookup (AIONotifier.dropped m id) id = some (.FutureInit aio true) ∧
       ∀ j, j ≠ id →
         Registry.lookup (AIONotifier.dropped m id) j = Registry.lookup m j) ∧
    (Registry.lookup m id = some (.FuturePending aio w d) →
       Registry.lookup (AIONotifier.dropped m id) id =
         some (.FuturePending aio w true) ∧
       ∀ j, j ≠ id →
         Registry.lookup (AIONotifier.dropped m id) j = Registry.lookup m j) ∧
    (Registry.lookup m id = some (.FutureDone ret) →
       Registry.lookup (AIONotifier.dropped m id) id = none ∧
       ∀ j, j ≠ id →
         Registry.lookup (AIONotifier.dropped m id) j = Registry.lookup m j) ∧
    (Registry.lookup m id = none → AIONotifier.dropped m id = m) := by
  refine ⟨fun h => ⟨?_, fun j hj => ?_⟩, fun h => ⟨?_, fun j hj => ?_⟩,
    fun h => ⟨?_, fun j hj => ?_⟩, fun h => ?_⟩
  all_goals
    first
    | simp [AIONotifier.dropped, h, Registry.lookup_insert_ne,
        Registry.lookup_erase_ne, hj]
    | simp [AIONotifier.dropped, h]

/-- Claim C6 (witness): the dropped transition evaluated on a concrete
Init registry. -/
theorem dropped_spec_witness :
    Registry.lookup
      (AIONotifier.dropped
        (Registry.insert Registry.empty 2 (.FutureInit aioPendEx false)) 2) 2 =
      some (.FutureInit aioPendEx true) :=
  ((dropped_spec (Registry.insert Registry.empty 2 (.FutureInit aioPendEx false))
      2 aioPendEx 0 false (.ok 0 [])).1 (by rfl)).1

/-- Claim C7: register_notify inserts the entry when the identifier is
absent and aborts (the assertion fails) when the identifier is occupied,
so a wrapped-around identifier can never silently displace a live entry. -/
theorem register_notify_spec (m : Registry) (id : Nat) (st : AIOState) :
    (Registry.lookup m id = none →
       AIONotifier.register_notify m id st = some (Registry.insert m id st)) ∧
    (∀ v, Registry.lookup m id = some v →
       AIONotifier.register_notify m id st = none) := by
  constructor
  · intro h
    simp [AIONotifier.register_notify, h]
  · intro v h
    simp [AIONotifier.register_notify, h]

/-- Claim C7 (witness): registration on an absent key succeeds on a
concrete empty registry, and registration on the now-occupied key aborts. -/
theorem register_notify_spec_witness :
    AIONotifier.register_notify Registry.empty 0 (.FutureInit aioPendEx false) =
      some (Registry.insert Registry.empty 0 (.FutureInit aioPendEx false)) ∧
    AIONotifier.register_notify
      (Registry.insert Registry.empty 0 (.FutureInit aioPendEx false)) 0
      (.FutureInit aioPendEx false) = none := by
  exact ⟨(register_notify_spec Registry.empty 0 (.FutureInit aioPendEx false)).1 rfl,
    (register_notify_spec (Registry.insert Registry.empty 0 (.FutureInit aioPendEx false))
        0 (.FutureInit aioPendEx false)).2 (.FutureInit aioPendEx false) rfl⟩

/-- The scheduler's counter after k calls to next_id, starting from the
freshly built scheduler. -/
def lastIdAfter : Nat → Nat
  | 0 => newBatchSchedulerLastId
  | k + 1 => (AIOBatchSchedulerIn.next_id (lastIdAfter k)).2

theorem lastIdAfter_eq (k : Nat) : lastIdAfter k = k % 2 ^ 64 := by
  induction k with
  | zero => simp [lastIdAfter, newBatchSchedulerLastId]
  | succ k ih =>
      show (lastIdAfter k + 1) % 2 ^ 64 = (k + 1) % 2 ^ 64
      rw [ih]
      conv_rhs => rw [Nat.add_mod]
      norm_num

/-- Claim C10: the first identifier a fresh scheduler allocates is 0, the
n-th allocated identifier is n minus 1 reduced mod 2 to the 64, and every
call returns its predecessor's value plus one with wrapping 64-bit
increment. -/
theorem next_id_sequence (n : Nat) (_h : 1 ≤ n) :
    (AIOBatchSchedulerIn.next_id (lastIdAfter 0)).1 = 0 ∧
    (AIOBatchSchedulerIn.next_id (lastIdAfter (n - 1))).1 = (n - 1) % 2 ^ 64 ∧
    ∀ k, (AIOBatchSchedulerIn.next_id (lastIdAfter (k + 1))).1 =
      ((AIOBatchSchedulerIn.next_id (lastIdAfter k)).1 + 1) % 2 ^ 64 := by
  refine ⟨rfl, ?_, fun k => ?_⟩
  · exact lastIdAfter_eq (n - 1)
  · rfl

/-- Claim C10 (witness): the fifth allocated identifier is 4. -/
theorem next_id_sequence_witness :
    (AIOBatchSchedulerIn.next_id (lastIdAfter (5 - 1))).1 = (5 - 1) % 2 ^ 64 :=
  (next_id_sequence 5 (by norm_num)).2.1

theorem getLast_append_single {α : Type} (l : List α) (a : α) :
    (l ++ [a]).getLast? = some a := by
  induction l with
  | nil => rfl
  | cons x xs ih =>
      rw [List.cons_append, List.getLast?_cons, ih]
      rfl

/-- The priority field of the control block most recently enqueued by a
read or write call, when the call succeeded. -/
def lastQueuedPrio (r : Option (SchedState × Nat)) : Option (Option Nat) :=
  r.map fun t => (t.1.queue.getLast?).map IOCb.aio_reqprio

/-- Claim C9: a read or write with priority None populates the control
block of the constructed record with aio_reqprio 0, and an explicitly
supplied priority is written through unchanged; the observed field is that
of the control block the call enqueued. -/
theorem read_write_priority (st : SchedState) (fd : Int) (off len : Nat)
    (buf : Buffer) (p : Nat)
    (hfree : Registry.lookup st.waiting st.last_id = none) :
    lastQueuedPrio (AIOManager.read st fd off len none) = some (some 0) ∧
    lastQueuedPrio (AIOManager.read st fd off len (some p)) = some (some p) ∧
    lastQueuedPrio (AIOManager.write st fd off buf none) = some (some 0) ∧
    lastQueuedPrio (AIOManager.write st fd off buf (some p)) = some (some p) := by
  refine ⟨?_, ?_, ?_, ?_⟩ <;>
    simp [AIOManager.read, AIOManager.write, AIOBatchSchedulerIn.schedule,
      AIONotifier.register_notify, AIOBatchSchedulerIn.next_id, hfree,
      lastQueuedPrio, Aio.new, getLast_append_single]

/-- Claim C9 (witness): the priority transitions evaluated on a fresh
manager state with an explicit priority 5 write. -/
theorem read_write_priority_witness :
    lastQueuedPrio (AIOManager.write
      { waiting := Registry.empty, queue := [], last_id := 0 } 3 0 [1, 2] (some 5)) =
      some (some 5) :=
  (read_write_priority { waiting := Registry.empty, queue := [], last_id := 0 }
      3 0 0 [1, 2] 5 rfl).2.2.2

theorem drainLoop_eq (q : List IOCb) : ∀ (pending : List IOCb) (quota : Nat),
    1 ≤ quota →
    drainLoop pending q quota = (pending ++ q.take quota, q.drop quota) := by
  induction q with
  | nil => intro pending quota _; simp [drainLoop]
  | cons x xs ih =>
      intro pending quota hq
      match quota, hq with
      | 1, _ => simp [drainLoop]
      | (k + 2), _ =>
          have hk : 1 ≤ k + 1 := by omega
          simp [drainLoop, ih (pending ++ [x]) (k + 1) hk]

theorem buildBatch_eq (maxN : Nat) (l q : List IOCb) (h : l.length ≤ maxN) :
    buildBatch maxN l q =
      (l ++ q.take (maxN - l.length), q.drop (maxN - l.length)) := by
  unfold buildBatch
  by_cases hlt : l.length < maxN
  · rw [if_pos hlt, drainLoop_eq q l (maxN - l.length) (by omega)]
  · rw [if_neg hlt]
    have h0 : maxN - l.length = 0 := by omega
    simp [h0]

theorem buildBatch_fst_nil (maxN : Nat) (l q : List IOCb)
    (h : (buildBatch maxN l q).1 = []) : l = [] := by
  unfold buildBatch at h
  by_cases hlt : l.length < maxN
  · rw [if_pos hlt, drainLoop_eq q l (maxN - l.length) (by omega)] at h
    exact (List.append_eq_nil.mp h).1
  · rw [if_neg hlt] at h
    exact h


theorem submit_leftover_le (maxN : Nat) (l q : List IOCb) (ret : Int)
    (h : l.length ≤ maxN) :
    ∀ nacc l2 q2, AIOBatchSchedulerOut.submit maxN l q ret = some (nacc, l2, q2) →
      l2.length ≤ maxN := by
  intro nacc l2 q2 hs
  have hlen : (buildBatch maxN l q).1.length ≤ maxN := by
    rw [buildBatch_eq maxN l q h]
    simp only [List.length_append, List.length_take]
    omega
  simp only [AIOBatchSchedulerOut.submit] at hs
  split at hs
  next h0 =>
    simp only [Option.some.injEq, Prod.mk.injEq] at hs
    obtain ⟨h1, h2, h3⟩ := hs
    subst h2
    exact h
  next h0 =>
    split at hs <;> split at hs
    all_goals
      first
      | (simp only [Option.some.injEq, Prod.mk.injEq] at hs
         obtain ⟨h1, h2, h3⟩ := hs
         subst h2
         simp only [List.length_drop]
         omega)
      | simp at hs

theorem submitOnce_inv (s : WorkerState) (ret : Int) (n : Nat) (s1 : WorkerState)
    (hs : submitOnce s ret = some (n, s1)) :
    s1.maxNbatched = s.maxNbatched ∧ s1.exited = s.exited ∧
    s1.exitRequested = s.exitRequested ∧ s1.ongoing = s.ongoing + n ∧
    (s.leftover.length ≤ s.maxNbatched → s1.leftover.length ≤ s1.maxNbatched) := by
  simp only [submitOnce] at hs
  split at hs
  next => exact absurd hs (by simp)
  next nacc l2 q2 heq =>
    simp only [Option.some.injEq, Prod.mk.injEq] at hs
    obtain ⟨hn, hs1⟩ := hs
    subst hn
    subst hs1
    refine ⟨rfl, rfl, rfl, rfl, fun hinv => ?_⟩
    exact submit_leftover_le s.maxNbatched s.leftover s.queue ret hinv _ _ _ heq

theorem submitLoop_inv : ∀ (rets : List Int) (s s1 : WorkerState),
    submitLoop s rets = some s1 →
    s1.maxNbatched = s.maxNbatched ∧ s1.exited = s.exited ∧
    s1.exitRequested = s.exitRequested ∧
    (s.leftover.length ≤ s.maxNbatched → s1.leftover.length ≤ s1.maxNbatched) := by
  intro rets
  induction rets with
  | nil => intro s s1 hs; exact absurd hs (by simp [submitLoop])
  | cons r rest ih =>
      intro s s1 hs
      simp only [submitLoop] at hs
      split at hs
      next => exact absurd hs (by simp)
      next n s2 heq =>
        have h2 := submitOnce_inv s r n s2 heq
        split at hs
        next =>
          simp only [Option.some.injEq] at hs
          subst hs
          exact ⟨h2.1, h2.2.1, h2.2.2.1, h2.2.2.2.2⟩
        next =>
          have h3 := ih s2 s1 hs
          refine ⟨h3.1.trans h2.1, h3.2.1.trans h2.2.1,
            h3.2.2.1.trans h2.2.2.1, fun hi => ?_⟩
          have hi2 := h2.2.2.2.2 hi
          rw [h2.1] at hi2
          exact h3.2.2.2 (by rw [h2.1]; exact hi2)

theorem workerBody_inv (s : WorkerState) (o : WOracle) (s1 : WorkerState)
    (hs : workerBody s o = some s1) :
    s1.maxNbatched = s.maxNbatched ∧ s1.exited = s.exited ∧
    (s.leftover.length ≤ s.maxNbatched → s1.leftover.length ≤ s1.maxNbatched) := by
  simp only [workerBody] at hs
  split at hs
  next => exact absurd hs (by simp)
  next s2 heq =>
    have h2 := submitLoop_inv o.submitRets s s2 heq
    split at hs
    next =>
      simp only [Option.some.injEq] at hs
      subst hs
      exact ⟨h2.1, h2.2.1, h2.2.2.2⟩
    next =>
      split at hs
      next => exact absurd hs (by simp)
      next => 
        simp only [Option.some.injEq] at hs
        subst hs
        exact ⟨h2.1, h2.2.1, h2.2.2.2⟩
      next evs =>
        split at hs
        next =>
          split at hs
          next => exact absurd hs (by simp)
          next m2 hdisp =>
            simp only [Option.some.injEq] at hs
            subst hs
            exact ⟨h2.1, h2.2.1, h2.2.2.2⟩
        next => exact absurd hs (by simp)

theorem workerIter_inv (s : WorkerState) (o : WOracle) (s1 : WorkerState)
    (hs : workerIter s o = some s1) :
    s1.maxNbatched = s.maxNbatched ∧
    (s.leftover.length ≤ s.maxNbatched → s1.leftover.length ≤ s1.maxNbatched) ∧
    (s1.exited = true →
       s.exited = false ∧ s.exitRequested = true ∧ s.ongoing = 0 ∧ s.leftover = []) := by
  simp only [workerIter] at hs
  split at hs
  next => exact absurd hs (by simp)
  next hex =>
    have hexf : s.exited = false := by simpa using hex
    split at hs
    next hq =>
      split at hs
      next hcond =>
        simp only [Option.some.injEq] at hs
        subst hs
        exact ⟨rfl, fun hi => hi, fun _ => ⟨hexf, hcond.1, hq.1, hq.2⟩⟩
      next hcond =>
        split at hs
        next hqne =>
          have hb := workerBody_inv s o s1 hs
          refine ⟨hb.1, hb.2.2, fun hext => ?_⟩
          rw [hb.2.1, hexf] at hext
          exact absurd hext (by simp)
        next => exact absurd hs (by simp)
    next hq =>
      have hb := workerBody_inv s o s1 hs
      refine ⟨hb.1, hb.2.2, fun hext => ?_⟩
      rw [hb.2.1, hexf] at hext
      exact absurd hext (by simp)

/-- Claim C8: the batch handed to io_submit is the leftover pointers
followed by the channel items drained non-blockingly within the cap, the
batch never exceeds max_nbatched, the new leftover a successful submit
leaves never exceeds max_nbatched, and a worker iteration preserves the
bound on the leftover vector. -/
theorem submit_batch_bound (maxN : Nat) (l q : List IOCb) (ret : Int)
    (h : l.length ≤ maxN) :
    (buildBatch maxN l q).1 = l ++ q.take (maxN - l.length) ∧
    (buildBatch maxN l q).1.length ≤ maxN ∧
    (∀ nacc l2 q2, AIOBatchSchedulerOut.submit maxN l q ret = some (nacc, l2, q2) →
       l2.length ≤ maxN) ∧
    (∀ (s : WorkerState) (o : WOracle) (s1 : WorkerState),
       workerIter s o = some s1 → s.leftover.length ≤ s.maxNbatched →
       s1.leftover.length ≤ s1.maxNbatched) := by
  refine ⟨?_, ?_, submit_leftover_le maxN l q ret h,
    fun s o s1 hst hi => (workerIter_inv s o s1 hst).2.1 hi⟩
  · simp [buildBatch_eq maxN l q h]
  · rw [buildBatch_eq maxN l q h]
    simp only [List.length_append, List.length_take]
    omega

/-- Claim C8 (witness): the batch composition and bound evaluated on a
concrete leftover and channel. -/
theorem submit_batch_bound_witness :
    (buildBatch 2 [IOCb.default] [IOCb.default]).1.length ≤ 2 :=
  (submit_batch_bound 2 [IOCb.default] [IOCb.default] 1 (by simp)).2.1

/-- Claim C3 (amended): for an io_submit return inside the i64 range that
is either nonnegative and at most the batch length (every return a kernel
can produce for this batch) or exactly minus EAGAIN, the accepted count is
the natural part of max(0, ret), ongoing advances by exactly that count,
and the batch suffix past the accepted prefix becomes the new leftover;
any other negative return wraps in the usize cast and aborts the worker on
the out-of-range suffix slice (see the counterexample). -/
theorem submit_accepted_count (maxN : Nat) (l q : List IOCb) (ret : Int)
    (hrange : -(2 ^ 63) ≤ ret ∧ ret < 2 ^ 63)
    (hok : (0 ≤ ret ∧ ret.toNat ≤ (buildBatch maxN l q).1.length) ∨ ret = -11) :
    AIOBatchSchedulerOut.submit maxN l q ret =
      some ((max 0 ret).toNat,
        List.drop ((max 0 ret).toNat) (buildBatch maxN l q).1,
        (buildBatch maxN l q).2) ∧
    ∀ s : WorkerState, s.maxNbatched = maxN → s.leftover = l → s.queue = q →
      (submitOnce s ret).map (fun t => (t.2.ongoing, t.1)) =
        some (s.ongoing + (max 0 ret).toNat, (max 0 ret).toNat) := by
  have hmain : AIOBatchSchedulerOut.submit maxN l q ret =
      some ((max 0 ret).toNat,
        List.drop ((max 0 ret).toNat) (buildBatch maxN l q).1,
        (buildBatch maxN l q).2) := by
    simp only [AIOBatchSchedulerOut.submit]
    rcases hok with ⟨h0, hle⟩ | h11
    · have hmax : max 0 ret = ret := max_eq_right h0
      have hguard : ¬(ret < 0 ∧ ret = -11) := by omega
      have hcast : castUsize ret = ret.toNat := by
        unfold castUsize
        rw [Int.emod_eq_of_lt h0 (by omega : ret < 2 ^ 64)]
      by_cases hlen0 : (buildBatch maxN l q).1.length = 0
      · have hnil : (buildBatch maxN l q).1 = [] := List.length_eq_zero.mp hlen0
        have hl : l = [] := buildBatch_fst_nil _ _ _ hnil
        have hr0 : ret.toNat = 0 := by omega
        rw [if_pos hlen0, hmax, hr0, List.drop_zero, hnil, hl]
      · rw [if_neg hlen0]
        rw [if_neg hguard, hcast, if_pos hle, hmax]
    · subst h11
      have hguard : ((-11 : Int) < 0 ∧ (-11 : Int) = -11) := by norm_num
      have hmax : (max 0 (-11 : Int)).toNat = 0 := by norm_num
      by_cases hlen0 : (buildBatch maxN l q).1.length = 0
      · have hnil : (buildBatch maxN l q).1 = [] := List.length_eq_zero.mp hlen0
        have hl : l = [] := buildBatch_fst_nil _ _ _ hnil
        rw [if_pos hlen0, hmax, List.drop_zero, hnil, hl]
      · rw [if_neg hlen0]
        rw [if_pos hguard, hmax]
        simp [castUsize]
  refine ⟨hmain, fun s h1 h2 h3 => ?_⟩
  simp only [submitOnce, h1, h2, h3, hmain]
  rfl

/-- Claim C3 (counterexample): with a one-element batch and io_submit
returning minus 22 (EINVAL), the source does not treat the accepted count
as max(0, ret) = 0 — the usize cast wraps to 2 to the 64 minus 22 and the
suffix slice aborts — whereas the claim requires accepting 0 entries and
keeping the whole batch as leftover. -/
theorem submit_negative_errno_aborts :
    AIOBatchSchedulerOut.submit 1 [] [IOCb.default] (-22) = none ∧
    (none : Option (Nat × List IOCb × List IOCb)) ≠
      some (0, [IOCb.default], []) := by
  exact ⟨by decide, by decide⟩

/-- Claim C3 (witness): the accepted-count computation evaluated at a
concrete EAGAIN return. -/
theorem submit_accepted_count_witness :
    AIOBatchSchedulerOut.submit 2 [] [IOCb.default] (-11) =
      some ((max 0 (-11 : Int)).toNat,
        List.drop ((max 0 (-11 : Int)).toNat) (buildBatch 2 [] [IOCb.default]).1,
        (buildBatch 2 [] [IOCb.default]).2) :=
  (submit_accepted_count 2 [] [IOCb.default] (-11) (by norm_num) (Or.inr rfl)).1

/-- Claim C2 (amended): the worker exits its loop only from the quiesce
check, that is only in an iteration that starts with no exit yet, a
pending shutdown signal, zero submitted-but-not-reaped operations and an
empty leftover buffer; the submission channel itself need not be drained
at that point. -/
theorem worker_exit_requires_idle (s : WorkerState) (o : WOracle) (s1 : WorkerState)
    (hstep : workerIter s o = some s1) (hex : s1.exited = true) :
    s.exited = false ∧ s.exitRequested = true ∧ s.ongoing = 0 ∧ s.leftover = [] :=
  (workerIter_inv s o s1 hstep).2.2 hex

/-- A quiescent worker state with a pending shutdown signal and one
control-block pointer still sitting in the submission channel. -/
def wsExit : WorkerState :=
  { maxNbatched := 128, ongoing := 0, leftover := [], queue := [IOCb.default],
    exitRequested := true, exited := false, waiting := Registry.empty }

/-- An oracle whose select choice picks the exit branch. -/
def woExit : WOracle :=
  { selPickExit := true, submitRets := [], getevents := none }

/-- Claim C2 (counterexample): from a state whose submission channel still
holds a pointer, the worker can take the exit branch of the quiesce select
and leave the loop with the channel undrained, contradicting the claim
that it exits only once the submission queue is fully drained. -/
theorem worker_exits_with_nonempty_queue :
    (workerIter wsExit woExit).map (fun t => (t.exited, t.queue)) =
      some (true, [IOCb.default]) ∧
    wsExit.queue ≠ [] := by
  exact ⟨rfl, by decide⟩

/-- Claim C2 (witness): the amended exit conditions evaluated on the
concrete exiting step. -/
theorem worker_exit_requires_idle_witness :
    wsExit.exited = false ∧ wsExit.exitRequested = true ∧
    wsExit.ongoing = 0 ∧ wsExit.leftover = [] :=
  worker_exit_requires_idle wsExit woExit
    { wsExit with exited := true, exitRequested := false } (by rfl) (by rfl)
